import Mathlib

/-!
Verification of the layered market-making worker
(`hummingbot/strategies/pure_market_making/v_1_0_0/worker.py`).

Shallow embedding conventions:
* Python `Decimal` (and the float arithmetic inside the middle-price
  routines) is modelled by exact rationals (`Rat`).
* Timestamps and the tick interval are natural numbers (milliseconds).
* Fallible operations are modelled with `Except`; gateway calls are
  abstracted as `Except` values or functions passed in as parameters.
* The best-of-book reads in the proposal builder use plain dict literals
  (`{"price": FLOAT_INFINITY}` / `{"price": FLOAT_ZERO}`) as defaults for
  an empty side; attribute access `.price` on a plain dict raises
  `AttributeError` (the levels themselves are `DotMap`s), so these reads
  are embedded as fallible computations that fail on an empty side.
* The worker's mutable tracking lists become explicit state values.
-/

/-- One order-book level, `{price, amount}`, as produced by
`_parse_order_book`. -/
structure BookLevel where
  price : Rat
  amount : Rat
deriving DecidableEq, Repr

/-- Side of an order (`hummingbot.types.OrderSide`); the worker only ever
constructs and inspects `BUY` and `SELL`. -/
inductive OrderSide where
  | BUY
  | SELL
deriving DecidableEq, Repr

/-- Order type; the proposal builder always uses `LIMIT`
(`bid_order.type = OrderType.LIMIT`). -/
inductive OrderType where
  | LIMIT
deriving DecidableEq, Repr

/-- Price strategy enum (`hummingbot.types.PriceStrategy`). -/
inductive PriceStrategy where
  | TICKER
  | MIDDLE
  | LAST_FILL
deriving DecidableEq, Repr

/-- Middle-price sub-strategy enum (`hummingbot.types.MiddlePriceStrategy`). -/
inductive MiddlePriceStrategy where
  | SAP
  | WAP
  | VWAP
deriving DecidableEq, Repr

/-- A proposed order as built by `_create_proposal` (`Order()` with the
fields the worker assigns). -/
structure Order where
  client_id : String
  market_name : String
  type : OrderType
  side : OrderSide
  amount : Rat
  price : Rat
deriving DecidableEq, Repr

/-- The market fields the worker reads (`self._market.minimumPriceIncrement`,
`self._market.minimumOrderSize`). -/
structure Market where
  minimumPriceIncrement : Rat
  minimumOrderSize : Rat
deriving DecidableEq, Repr

/-- One side of a configured layer
(`layer.bid` / `layer.ask`: quantity, spread %, liquidity cap). -/
structure LayerSide where
  quantity : Nat
  spread_percentage : Rat
  max_liquidity_in_dollars : Rat
deriving DecidableEq, Repr

/-- One configured layer (`self._configuration.strategy.layers[i]`). -/
structure Layer where
  bid : LayerSide
  ask : LayerSide
deriving DecidableEq, Repr

/-! ## `_calculate_waiting_time` (worker.py lines 1031-1035) -/

/-- `_calculate_waiting_time`: `number - (current_timestamp_in_milliseconds % number)`.
The current time, read from `time.time()` in the source, is an explicit
parameter here. -/
def calculate_waiting_time (number : Nat) (current_timestamp_in_milliseconds : Nat) : Nat :=
  number - current_timestamp_in_milliseconds % number

/-! ## `_cancel_currently_untracked_orders` (worker.py lines 751-792) -/

/-- The id set computed by `_cancel_currently_untracked_orders`:
`set(self._tracked_orders_ids).intersection(set(open_orders_ids))
 - set(self._currently_tracked_orders_ids)`. -/
def untracked_orders_ids (tracked_orders_ids currently_tracked_orders_ids open_orders_ids :
    List String) : Finset String :=
  (tracked_orders_ids.toFinset ∩ open_orders_ids.toFinset) \
    currently_tracked_orders_ids.toFinset

/-- `_cancel_currently_untracked_orders` as an effect description:
`some s` means a `kujira_delete_orders` request carrying ids `s` is issued
(`if len(untracked_orders_ids) > 0`); `none` means no delete call. -/
def cancel_currently_untracked_orders (tracked_orders_ids currently_tracked_orders_ids
    open_orders_ids : List String) : Option (Finset String) :=
  let u := untracked_orders_ids tracked_orders_ids currently_tracked_orders_ids open_orders_ids
  if u = ∅ then none else some u

/-! ## `_adjust_proposal_to_budget` (worker.py lines 359-391) -/

/-- `_adjust_proposal_to_budget`: walk the candidate proposal in order with
mutable `current_base_balance` / `current_quote_balance`; a `BUY` is kept iff
`current_quote_balance > order.amount` (then the quote balance is decremented
by `order.amount`), a `SELL` iff `current_base_balance > order.amount`;
rejected orders are skipped (`continue`). -/
def adjust_proposal_to_budget (current_base_balance current_quote_balance : Rat) :
    List Order → List Order
  | [] => []
  | order :: rest =>
    match order.side with
    | OrderSide.BUY =>
      if current_quote_balance > order.amount then
        order :: adjust_proposal_to_budget current_base_balance
          (current_quote_balance - order.amount) rest
      else
        adjust_proposal_to_budget current_base_balance current_quote_balance rest
    | OrderSide.SELL =>
      if current_base_balance > order.amount then
        order :: adjust_proposal_to_budget (current_base_balance - order.amount)
          current_quote_balance rest
      else
        adjust_proposal_to_budget current_base_balance current_quote_balance rest

/-! ## `_calculate_middle_price` (worker.py lines 964-1028) and its helpers -/

/-- Minimum of a non-empty list of rationals (`min(prices)`); `0` on the
empty list, which the callers guard against. -/
def list_min : List Rat → Rat
  | [] => 0
  | p :: ps => ps.foldl min p

/-- Maximum of a non-empty list of rationals (`max(prices)`); `0` on the
empty list, which the callers guard against. -/
def list_max : List Rat → Rat
  | [] => 0
  | p :: ps => ps.foldl max p

/-- The first book level carrying the minimal price, mirroring
`prices.index(min(prices))` followed by indexing back into the book
(Python's `index` returns the first occurrence). -/
def first_min_level : List BookLevel → Option BookLevel
  | [] => none
  | l :: ls => some (ls.foldl (fun best x => if x.price < best.price then x else best) l)

/-- The first book level carrying the maximal price, mirroring
`prices.index(max(prices))`. -/
def first_max_level : List BookLevel → Option BookLevel
  | [] => none
  | l :: ls => some (ls.foldl (fun best x => if best.price < x.price then x else best) l)

/-- `VWAP_THRESHOLD` from `hummingbot.constants`.
Modelled from the spec: the constants module is not part of the sources;
the spec fixes this percentage constant at "order of magnitude ≈ 30". -/
def VWAP_THRESHOLD : Rat := 30

/-- `_split_percentage`: keep the first `ceil((VWAP_THRESHOLD / 100) * len)`
levels of a side. -/
def split_percentage_side (book : List BookLevel) : List BookLevel :=
  book.take (Nat.ceil ((VWAP_THRESHOLD / 100) * (book.length : Rat)))

/-- `np.percentile(prices, q)` with the default linear interpolation,
over exact rationals: sort ascending and interpolate at rank
`(q / 100) * (n - 1)`.  The empty case (where numpy raises) returns `0`;
callers guard against it. -/
def percentile (prices : List Rat) (q : Rat) : Rat :=
  match prices.insertionSort (fun a b => a ≤ b) with
  | [] => 0
  | p :: ps =>
    let s := p :: ps
    let position : Rat := (q / 100) * ((s.length : Rat) - 1)
    let lower := Int.toNat ⌊position⌋
    let upper := Int.toNat ⌈position⌉
    let lower_value := s.getD lower 0
    let upper_value := s.getD upper 0
    lower_value + (position - (⌊position⌋ : Rat)) * (upper_value - lower_value)

/-- `_remove_outliers`: drop asks at or above `1.5 * Q75` and bids at or
below `0.5 * Q25` of the side's prices. -/
def remove_outliers (order_book : List BookLevel) (side : OrderSide) : List BookLevel :=
  let prices := order_book.map (·.price)
  let q75 := percentile prices 75
  let q25 := percentile prices 25
  let max_threshold := q75 * (3 / 2)
  let min_threshold := q25 * (1 / 2)
  match side with
  | OrderSide.SELL => order_book.filter (fun order => order.price < max_threshold)
  | OrderSide.BUY => order_book.filter (fun order => min_threshold < order.price)

/-- The last entry of `np.cumsum(amounts * prices) / np.cumsum(amounts)`:
the total price-weighted volume divided by the total volume. -/
def volume_weighted_average_price_last (book : List BookLevel) : Rat :=
  (book.map (fun order => order.amount * order.price)).sum / (book.map (·.amount)).sum

/-- `_calculate_middle_price`: the three middle-price computations over the
parsed book. SAP averages the best (min ask / max bid) prices with `0` for a
missing side; WAP volume-weights the two best levels, `0` when their volumes
sum to `0`; VWAP trims each side to the top `VWAP_THRESHOLD` percent,
removes outliers, then takes the final running volume-weighted average. -/
def calculate_middle_price (bids asks : List BookLevel) :
    MiddlePriceStrategy → Rat
  | MiddlePriceStrategy.SAP =>
    let ask_prices := asks.map (·.price)
    let bid_prices := bids.map (·.price)
    let best_ask_price := if 0 < ask_prices.length then list_min ask_prices else 0
    let best_bid_price := if 0 < bid_prices.length then list_max bid_prices else 0
    (best_ask_price + best_bid_price) / 2
  | MiddlePriceStrategy.WAP =>
    let best_ask := first_min_level asks
    let best_bid := first_max_level bids
    let best_ask_price := (best_ask.map (·.price)).getD 0
    let best_ask_volume := (best_ask.map (·.amount)).getD 0
    let best_bid_price := (best_bid.map (·.price)).getD 0
    let best_bid_amount := (best_bid.map (·.amount)).getD 0
    if 0 < best_ask_volume + best_bid_amount then
      (best_ask_price * best_ask_volume + best_bid_price * best_bid_amount) /
        (best_ask_volume + best_bid_amount)
    else 0
  | MiddlePriceStrategy.VWAP =>
    let bids1 := split_percentage_side bids
    let asks1 := split_percentage_side asks
    let bids2 := if 0 < bids1.length then remove_outliers bids1 OrderSide.BUY else bids1
    let asks2 := if 0 < asks1.length then remove_outliers asks1 OrderSide.SELL else asks1
    let book := bids2 ++ asks2
    if 0 < book.length then volume_weighted_average_price_last book else 0

/-! ## `_get_market_middle_price` (worker.py lines 417-435)

The nested `try/except` fallback chain.  At the Python level each
`_calculate_middle_price` call can raise (its arithmetic runs through
`numpy`/`Decimal` on venue-shaped data), and the final fallback is the
fallible gateway ticker call; both are therefore abstracted as `Except`
computations handed in as parameters. -/

/-- `_get_market_middle_price`: with an explicit (truthy) strategy the
corresponding calculation is returned directly; with no strategy the chain
VWAP → WAP → SAP is attempted, each failure swallowed, before falling back
to `_get_market_price` (whose own failure is not caught). -/
def get_market_middle_price {ε : Type} (calculate : MiddlePriceStrategy → Except ε Rat)
    (get_market_price : Except ε Rat) : Option MiddlePriceStrategy → Except ε Rat
  | some strategy => calculate strategy
  | none =>
    match calculate MiddlePriceStrategy.VWAP with
    | Except.ok price => Except.ok price
    | Except.error _ =>
      match calculate MiddlePriceStrategy.WAP with
      | Except.ok price => Except.ok price
      | Except.error _ =>
        match calculate MiddlePriceStrategy.SAP with
        | Except.ok price => Except.ok price
        | Except.error _ => get_market_price

/-- The sub-strategy `_create_proposal` resolves (worker.py line 262):
`MiddlePriceStrategy[self._configuration.strategy.get("middle_price_strategy",
MiddlePriceStrategy.SAP.name)]` — an absent configuration key defaults to
`SAP`. -/
def configured_middle_price_strategy (cfg : Option MiddlePriceStrategy) :
    MiddlePriceStrategy :=
  cfg.getD MiddlePriceStrategy.SAP

/-- The reference price the `MIDDLE` branch of `_create_proposal` obtains
(worker.py lines 261-268): the resolved sub-strategy — always a truthy enum
member — is passed to `_get_market_middle_price`. -/
def middle_used_price {ε : Type} (calculate : MiddlePriceStrategy → Except ε Rat)
    (get_market_price : Except ε Rat) (cfg : Option MiddlePriceStrategy) : Except ε Rat :=
  get_market_middle_price calculate get_market_price
    (some (configured_middle_price_strategy cfg))

/-! ## `_replace_orders` (worker.py lines 703-749) -/

/-- The worker's order-tracking state
(`self._currently_tracked_orders_ids`, `self._tracked_orders_ids`). -/
structure TrackingState where
  currently_tracked_orders_ids : List String
  tracked_orders_ids : List String
deriving DecidableEq, Repr

/-- `_replace_orders`: one wire order is built per candidate, so the
`if len(orders)` test is equivalent to the proposal being non-empty.  The
gateway call `kujira_post_orders` is abstracted as `post_orders_response`,
whose `ok` payload is `list(response.keys())`.  On a non-empty proposal and a
successful call the state becomes `currently_tracked_orders_ids = keys` and
`tracked_orders_ids.extend(keys)`; on an empty proposal no call is made and
the state is untouched; a gateway failure propagates before any mutation.
The `Bool` records whether the post call was issued. -/
def replace_orders {ε : Type} (state : TrackingState) (proposal : List Order)
    (post_orders_response : Except ε (List String)) : Except ε (TrackingState × Bool) :=
  if proposal.isEmpty then
    Except.ok (state, false)
  else
    match post_orders_response with
    | Except.error e => Except.error e
    | Except.ok keys =>
      Except.ok
        ({ currently_tracked_orders_ids := keys,
           tracked_orders_ids := state.tracked_orders_ids ++ keys }, true)

/-! ## `_create_proposal` (worker.py lines 243-357)

The layer loops of the proposal builder.  Python raises
`decimal.DivisionByZero` / `decimal.InvalidOperation` when a layer with a
positive quantity divides its liquidity budget by a zero layer price
(`ProposalError.divisionByZero`); the reference-price validation at
worker.py lines 274-275 raises `ValueError` (`ProposalError.invalidPrice`);
and each loop iteration's best-of-book read (worker.py lines 285 and 318)
uses a plain dict literal as the empty-side default, whose `.price`
attribute access raises `AttributeError` — the parsed levels are `DotMap`s,
so the read only succeeds on a non-empty side
(`ProposalError.attributeError`). -/

/-- The errors `_create_proposal` can raise that the embedding tracks. -/
inductive ProposalError where
  | invalidPrice (price : Rat)
  | divisionByZero
  | attributeError
deriving DecidableEq, Repr

/-- The warning diagnostics logged when a layer side is skipped
(`Skipping orders placement from layer {index}, ... too low`). -/
inductive ProposalWarning where
  | bidPriceTooLow (layer : Nat)
  | bidSizeTooLow (layer : Nat)
  | askPriceTooLow (layer : Nat)
  | askSizeTooLow (layer : Nat)
deriving DecidableEq, Repr

/-- `Decimal(next(iter(asks), {"price": FLOAT_INFINITY}).price)`
(worker.py line 285): the first (lowest) ask level's price.  On an empty
ask side `next` returns the plain dict default and the `.price` attribute
access raises `AttributeError`. -/
def best_ask_price : List BookLevel → Except ProposalError Rat
  | [] => Except.error ProposalError.attributeError
  | level :: _ => Except.ok level.price

/-- `Decimal(next(iter(bids), {"price": FLOAT_ZERO}).price)`
(worker.py line 318): the first (highest) bid level's price.  On an empty
bid side `next` returns the plain dict default and the `.price` attribute
access raises `AttributeError`. -/
def best_bid_price : List BookLevel → Except ProposalError Rat
  | [] => Except.error ProposalError.attributeError
  | level :: _ => Except.ok level.price

/-- `bid_market_price = ((100 - bid_spread_percentage) / 100) *
min(used_price, best_ask)`. -/
def layer_bid_price (used_price best_ask : Rat) (side : LayerSide) : Rat :=
  ((100 - side.spread_percentage) / 100) *
    (if used_price ≤ best_ask then used_price else best_ask)

/-- `bid_size = bid_max_liquidity_in_dollars / bid_market_price / bid_quantity
if bid_quantity > 0 else 0`. -/
def layer_bid_size (used_price best_ask : Rat) (side : LayerSide) : Rat :=
  if 0 < side.quantity then
    side.max_liquidity_in_dollars / layer_bid_price used_price best_ask side
      / (side.quantity : Rat)
  else 0

/-- `ask_market_price = ((100 + ask_spread_percentage) / 100) *
max(used_price, best_bid)`. -/
def layer_ask_price (used_price best_bid : Rat) (side : LayerSide) : Rat :=
  ((100 + side.spread_percentage) / 100) *
    (if used_price ≤ best_bid then best_bid else used_price)

/-- `ask_size = ask_max_liquidity_in_dollars / ask_market_price / ask_quantity
if ask_quantity > 0 else 0`. -/
def layer_ask_size (used_price best_bid : Rat) (side : LayerSide) : Rat :=
  if 0 < side.quantity then
    side.max_liquidity_in_dollars / layer_ask_price used_price best_bid side
      / (side.quantity : Rat)
  else 0

/-- The `for i in range(quantity)` emission: `quantity` identical orders
whose client ids continue the running counter as decimal strings. -/
def make_orders (side : OrderSide) (market_name : String) (price size : Rat)
    (quantity client_id : Nat) : List Order :=
  (List.range quantity).map (fun i =>
    { client_id := toString (client_id + i), market_name := market_name,
      type := OrderType.LIMIT, side := side, amount := size, price := price })

/-- One iteration of the bid layer loop (worker.py lines 284-314): read the
best ask (raising on an empty ask side), compute the layer price, then the
size (raising on a zero divisor), then apply the two viability gates, else
emit `quantity` orders and advance the client-id counter. -/
def bid_layer_step (market_name : String) (minimum_price_increment minimum_order_size
    used_price : Rat) (asks : List BookLevel) (index : Nat) (side : LayerSide)
    (client_id : Nat) : Except ProposalError (List Order × List ProposalWarning × Nat) :=
  match best_ask_price asks with
  | Except.error e => Except.error e
  | Except.ok best_ask =>
    let price := layer_bid_price used_price best_ask side
    if 0 < side.quantity ∧ price = 0 then
      Except.error ProposalError.divisionByZero
    else
      let size := layer_bid_size used_price best_ask side
      if price < minimum_price_increment then
        Except.ok ([], [ProposalWarning.bidPriceTooLow index], client_id)
      else if size < minimum_order_size then
        Except.ok ([], [ProposalWarning.bidSizeTooLow index], client_id)
      else
        Except.ok (make_orders OrderSide.BUY market_name price size side.quantity client_id,
          [], client_id + side.quantity)

/-- One iteration of the ask layer loop (worker.py lines 317-349): the best
bid read raises on an empty bid side. -/
def ask_layer_step (market_name : String) (minimum_price_increment minimum_order_size
    used_price : Rat) (bids : List BookLevel) (index : Nat) (side : LayerSide)
    (client_id : Nat) : Except ProposalError (List Order × List ProposalWarning × Nat) :=
  match best_bid_price bids with
  | Except.error e => Except.error e
  | Except.ok best_bid =>
    let price := layer_ask_price used_price best_bid side
    if 0 < side.quantity ∧ price = 0 then
      Except.error ProposalError.divisionByZero
    else
      let size := layer_ask_size used_price best_bid side
      if price < minimum_price_increment then
        Except.ok ([], [ProposalWarning.askPriceTooLow index], client_id)
      else if size < minimum_order_size then
        Except.ok ([], [ProposalWarning.askSizeTooLow index], client_id)
      else
        Except.ok (make_orders OrderSide.SELL market_name price size side.quantity client_id,
          [], client_id + side.quantity)

/-- The bid loop over `enumerate(self._configuration.strategy.layers, start=1)`. -/
def bid_layers_loop (market_name : String) (minimum_price_increment minimum_order_size
    used_price : Rat) (asks : List BookLevel) :
    List Layer → Nat → Nat → Except ProposalError (List Order × List ProposalWarning × Nat)
  | [], _, client_id => Except.ok ([], [], client_id)
  | layer :: rest, index, client_id =>
    match bid_layer_step market_name minimum_price_increment minimum_order_size used_price
        asks index layer.bid client_id with
    | Except.error e => Except.error e
    | Except.ok (orders, warnings, next_client_id) =>
      match bid_layers_loop market_name minimum_price_increment minimum_order_size used_price
          asks rest (index + 1) next_client_id with
      | Except.error e => Except.error e
      | Except.ok (rest_orders, rest_warnings, final_client_id) =>
        Except.ok (orders ++ rest_orders, warnings ++ rest_warnings, final_client_id)

/-- The ask loop over `enumerate(self._configuration.strategy.layers, start=1)`. -/
def ask_layers_loop (market_name : String) (minimum_price_increment minimum_order_size
    used_price : Rat) (bids : List BookLevel) :
    List Layer → Nat → Nat → Except ProposalError (List Order × List ProposalWarning × Nat)
  | [], _, client_id => Except.ok ([], [], client_id)
  | layer :: rest, index, client_id =>
    match ask_layer_step market_name minimum_price_increment minimum_order_size used_price
        bids index layer.ask client_id with
    | Except.error e => Except.error e
    | Except.ok (orders, warnings, next_client_id) =>
      match ask_layers_loop market_name minimum_price_increment minimum_order_size used_price
          bids rest (index + 1) next_client_id with
      | Except.error e => Except.error e
      | Except.ok (rest_orders, rest_warnings, final_client_id) =>
        Except.ok (orders ++ rest_orders, warnings ++ rest_warnings, final_client_id)

/-- `_create_proposal` from the point where the reference price is in hand
(worker.py lines 274-355): validate `used_price > 0`, run the bid layer loop
(client ids from `1`), continue the counter through the ask layer loop, and
return `[*bid_orders, *ask_orders]` together with the warnings logged. -/
def create_proposal (market_name : String) (market : Market) (layers : List Layer)
    (bids asks : List BookLevel) (used_price : Rat) :
    Except ProposalError (List Order × List ProposalWarning) :=
  if used_price ≤ 0 then
    Except.error (ProposalError.invalidPrice used_price)
  else
    match bid_layers_loop market_name market.minimumPriceIncrement market.minimumOrderSize
        used_price asks layers 1 1 with
    | Except.error e => Except.error e
    | Except.ok (bid_orders, bid_warnings, next_client_id) =>
      match ask_layers_loop market_name market.minimumPriceIncrement market.minimumOrderSize
          used_price bids layers 1 next_client_id with
      | Except.error e => Except.error e
      | Except.ok (ask_orders, ask_warnings, _) =>
        Except.ok (bid_orders ++ ask_orders, bid_warnings ++ ask_warnings)

/-! ## `_get_duplicated_orders_ids` (worker.py lines 873-902) -/

/-- An open order as returned by the gateway, restricted to the fields the
duplicate scan reads (`order.id`, `order.clientId`).  The venue id is a
string on the wire, compared lexicographically by Python's `sort`; the
embedding abstracts it as any linearly ordered type `ι`. -/
structure OpenOrder (ι : Type) where
  id : ι
  clientId : String
deriving DecidableEq, Repr

/-- Inserting one order into the `open_orders_map` built by
`_get_duplicated_orders_ids`: orders with `clientId == "0"` are skipped
("Avoid touching manually created orders"); otherwise the order is appended
to its client id's group, a fresh group being opened at the end on first
sight (Python dicts preserve insertion order). -/
def insert_into_groups {ι : Type} (groups : List (String × List (OpenOrder ι)))
    (order : OpenOrder ι) : List (String × List (OpenOrder ι)) :=
  if order.clientId = "0" then groups
  else if groups.any (fun g => g.1 = order.clientId) then
    groups.map (fun g => if g.1 = order.clientId then (g.1, g.2 ++ [order]) else g)
  else groups ++ [(order.clientId, [order])]

/-- The `open_orders_map` after scanning the whole open-order list. -/
def build_groups {ι : Type} (acc : List (String × List (OpenOrder ι))) :
    List (OpenOrder ι) → List (String × List (OpenOrder ι))
  | [] => acc
  | order :: rest => build_groups (insert_into_groups acc order) rest

/-- `orders.sort(key=lambda order: order.id)` — Python's stable sort by
venue id, modelled by the (stable) insertion sort. -/
def sort_by_id {ι : Type} [LinearOrder ι] (orders : List (OpenOrder ι)) :
    List (OpenOrder ι) :=
  orders.insertionSort (fun a b => a.id ≤ b.id)

/-- `_get_duplicated_orders_ids`: group the open orders by client id
(skipping `"0"`), sort each group by venue id, and collect the ids of all
but the last order of every group (`orders[:-1]`). -/
def get_duplicated_orders_ids {ι : Type} [LinearOrder ι]
    (open_orders : List (OpenOrder ι)) : List ι :=
  ((build_groups [] open_orders).map
    (fun g => ((sort_by_id g.2).dropLast).map (·.id))).flatten

/-- A concrete family of middle-price computations for exhibiting the
dispatch of `_create_proposal` lines 258-268: VWAP would yield `42`, WAP
`41`, SAP `7`. -/
def middle_calculate_cex : MiddlePriceStrategy → Except Unit Rat
  | MiddlePriceStrategy.VWAP => Except.ok 42
  | MiddlePriceStrategy.WAP => Except.ok 41
  | MiddlePriceStrategy.SAP => Except.ok 7

/-- Invariant of the grouping pass of `_get_duplicated_orders_ids`: after
processing a prefix of the open orders, every group holds exactly the
processed orders of its (non-`"0"`) client id, in order, and every
processed order with a non-`"0"` client id has a group. -/
def groups_invariant {ι : Type} (processed : List (OpenOrder ι))
    (groups : List (String × List (OpenOrder ι))) : Prop :=
  (∀ g ∈ groups, g.1 ≠ "0" ∧ g.2 ≠ []
      ∧ g.2 = processed.filter (fun o => o.clientId = g.1))
  ∧ (∀ o ∈ processed, o.clientId ≠ "0" → ∃ g ∈ groups, g.1 = o.clientId)

/-! # Theorems -/

/-- C6: for every positive tick interval and current time in milliseconds,
the waiting time equals `interval - (now % interval)`, lies in
`(0, interval]`, and lands the wake-up exactly on the interval grid. -/
theorem waiting_time_aligns_ticks (number now : Nat) (h : 0 < number) :
    calculate_waiting_time number now = number - now % number
    ∧ 0 < calculate_waiting_time number now
    ∧ calculate_waiting_time number now ≤ number
    ∧ (now + calculate_waiting_time number now) % number = 0 := by
  have hmod : now % number < number := Nat.mod_lt _ h
  refine ⟨rfl, ?_, ?_, ?_⟩
  · unfold calculate_waiting_time; omega
  · unfold calculate_waiting_time; omega
  · obtain ⟨q, hq⟩ : ∃ q, number * q + now % number = now :=
      ⟨now / number, Nat.div_add_mod now number⟩
    have h2 : now + calculate_waiting_time number now = number + number * q := by
      unfold calculate_waiting_time; omega
    rw [h2, Nat.add_mul_mod_self_left, Nat.mod_self]

/-- Witness for C6: tick interval `1000` ms at a time ending in `…345`
gives a delay of `655` ms. -/
theorem waiting_time_aligns_ticks_witness :
    0 < 1000
    ∧ (calculate_waiting_time 1000 1697040345 = 1000 - 1697040345 % 1000
        ∧ 0 < calculate_waiting_time 1000 1697040345
        ∧ calculate_waiting_time 1000 1697040345 ≤ 1000
        ∧ (1697040345 + calculate_waiting_time 1000 1697040345) % 1000 = 0)
    ∧ calculate_waiting_time 1000 1697040345 = 655 :=
  ⟨by decide, waiting_time_aligns_ticks 1000 1697040345 (by decide), by decide⟩

/-- C1: the ids submitted by the cancel-currently-untracked operation are
exactly `trackedIds ∩ openIds \ currentlyTrackedIds`; this set is disjoint
from `currentlyTrackedIds`, contains no id outside `trackedIds` (foreign
orders are never cancelled), and no delete call is issued when it is
empty. -/
theorem cancel_untracked_only_stale_tracked
    (tracked currently open_ids : List String) :
    (∀ s, cancel_currently_untracked_orders tracked currently open_ids = some s →
        s = (tracked.toFinset ∩ open_ids.toFinset) \ currently.toFinset)
    ∧ Disjoint (untracked_orders_ids tracked currently open_ids) currently.toFinset
    ∧ untracked_orders_ids tracked currently open_ids ⊆ tracked.toFinset
    ∧ (untracked_orders_ids tracked currently open_ids ≠ ∅ →
        cancel_currently_untracked_orders tracked currently open_ids
          = some (untracked_orders_ids tracked currently open_ids))
    ∧ (untracked_orders_ids tracked currently open_ids = ∅ →
        cancel_currently_untracked_orders tracked currently open_ids = none) := by
  refine ⟨?_, ?_, ?_, ?_, ?_⟩
  · intro s hs
    unfold cancel_currently_untracked_orders at hs
    by_cases he : untracked_orders_ids tracked currently open_ids = ∅
    · simp [he] at hs
    · simp only [he, if_neg, ite_false] at hs
      exact (Option.some.injEq .. ▸ hs).symm
  · exact Finset.sdiff_disjoint
  · intro x hx
    have hx' := Finset.mem_sdiff.1 hx
    exact (Finset.mem_inter.1 hx'.1).1
  · intro he
    unfold cancel_currently_untracked_orders
    simp [he]
  · intro he
    unfold cancel_currently_untracked_orders
    simp [he]

/-- Witness for C1, the spec's scenario S5: `trackedIds = {A,B,C}`,
`currentlyTrackedIds = {B}`, venue open `{A,B,D}`: the cancel request
carries `{A}` only. -/
theorem cancel_untracked_only_stale_tracked_witness :
    cancel_currently_untracked_orders ["A", "B", "C"] ["B"] ["A", "B", "D"]
      = some {"A"}
    ∧ ({"A"} : Finset String)
      = (["A", "B", "C"].toFinset ∩ ["A", "B", "D"].toFinset) \ ["B"].toFinset := by
  have h1 : cancel_currently_untracked_orders ["A", "B", "C"] ["B"] ["A", "B", "D"]
      = some {"A"} := by decide
  exact ⟨h1, (cancel_untracked_only_stale_tracked ["A", "B", "C"] ["B"]
    ["A", "B", "D"]).1 {"A"} h1⟩

/-- C4: the budget adjuster walks the proposal in order; a `BUY` is admitted
iff the free quote balance strictly exceeds the order's (base) amount, a
`SELL` iff the free base balance strictly exceeds the amount, the admitted
amount is subtracted from the corresponding balance, and rejected orders are
dropped; on the spec's scenario S4 the result is `[BUY 5@9, SELL 3@12]`. -/
theorem budget_adjuster_walk (b q : Rat) (o : Order) (rest : List Order) :
    (o.side = OrderSide.BUY → q > o.amount →
        adjust_proposal_to_budget b q (o :: rest)
          = o :: adjust_proposal_to_budget b (q - o.amount) rest)
    ∧ (o.side = OrderSide.BUY → ¬ q > o.amount →
        adjust_proposal_to_budget b q (o :: rest)
          = adjust_proposal_to_budget b q rest)
    ∧ (o.side = OrderSide.SELL → b > o.amount →
        adjust_proposal_to_budget b q (o :: rest)
          = o :: adjust_proposal_to_budget (b - o.amount) q rest)
    ∧ (o.side = OrderSide.SELL → ¬ b > o.amount →
        adjust_proposal_to_budget b q (o :: rest)
          = adjust_proposal_to_budget b q rest)
    ∧ adjust_proposal_to_budget 4 7
        [⟨"1", "m", OrderType.LIMIT, OrderSide.BUY, 5, 9⟩,
         ⟨"2", "m", OrderType.LIMIT, OrderSide.BUY, 5, 8⟩,
         ⟨"3", "m", OrderType.LIMIT, OrderSide.SELL, 3, 12⟩]
      = [⟨"1", "m", OrderType.LIMIT, OrderSide.BUY, 5, 9⟩,
         ⟨"3", "m", OrderType.LIMIT, OrderSide.SELL, 3, 12⟩] := by
  refine ⟨?_, ?_, ?_, ?_, by norm_num [adjust_proposal_to_budget]⟩
  · intro hside hbal
    simp only [adjust_proposal_to_budget, hside, if_pos hbal]
  · intro hside hbal
    simp only [adjust_proposal_to_budget, hside, if_neg hbal]
  · intro hside hbal
    simp only [adjust_proposal_to_budget, hside, if_pos hbal]
  · intro hside hbal
    simp only [adjust_proposal_to_budget, hside, if_neg hbal]

/-- Witness for C4: a single `BUY` of amount `5` against free quote `7`. -/
theorem budget_adjuster_walk_witness :
    (⟨"1", "m", OrderType.LIMIT, OrderSide.BUY, 5, 9⟩ : Order).side = OrderSide.BUY
    ∧ (7 : Rat) > (⟨"1", "m", OrderType.LIMIT, OrderSide.BUY, 5, 9⟩ : Order).amount
    ∧ adjust_proposal_to_budget 0 7 [⟨"1", "m", OrderType.LIMIT, OrderSide.BUY, 5, 9⟩]
        = ⟨"1", "m", OrderType.LIMIT, OrderSide.BUY, 5, 9⟩ ::
            adjust_proposal_to_budget 0 (7 - 5) [] := by
  refine ⟨rfl, by decide, ?_⟩
  exact (budget_adjuster_walk 0 7 ⟨"1", "m", OrderType.LIMIT, OrderSide.BUY, 5, 9⟩ []).1
    rfl (by decide)

/-- C8: on an empty proposal `_replace_orders` issues no placement call and
leaves both tracking lists untouched; on a non-empty proposal whose
placement succeeds, `currentlyTrackedIds` becomes exactly the response keys,
the keys are appended to `trackedIds`, and every currently tracked id is
tracked. -/
theorem replace_orders_tracking {ε : Type} (state : TrackingState)
    (proposal : List Order) (post : Except ε (List String)) :
    (proposal = [] → replace_orders state proposal post = Except.ok (state, false))
    ∧ (∀ keys, proposal ≠ [] → post = Except.ok keys →
        replace_orders state proposal post
          = Except.ok ({ currently_tracked_orders_ids := keys,
                         tracked_orders_ids := state.tracked_orders_ids ++ keys }, true)
          ∧ ∀ s ∈ keys, s ∈ state.tracked_orders_ids ++ keys) := by
  constructor
  · intro h
    subst h
    rfl
  · intro keys hne hpost
    subst hpost
    refine ⟨?_, fun s hs => List.mem_append_right _ hs⟩
    unfold replace_orders
    rw [if_neg (by simpa [List.isEmpty_iff] using hne)]

/-- Witness for C8: a one-order proposal placed successfully with response
keys `[k1, k2]`. -/
theorem replace_orders_tracking_witness :
    ([⟨"1", "m", OrderType.LIMIT, OrderSide.BUY, 5, 9⟩] : List Order) ≠ []
    ∧ (Except.ok ["k1", "k2"] : Except Unit (List String)) = Except.ok ["k1", "k2"]
    ∧ replace_orders ⟨["old"], ["x", "old"]⟩
        [⟨"1", "m", OrderType.LIMIT, OrderSide.BUY, 5, 9⟩]
        (Except.ok ["k1", "k2"] : Except Unit (List String))
        = Except.ok ({ currently_tracked_orders_ids := ["k1", "k2"],
                       tracked_orders_ids := ["x", "old", "k1", "k2"] }, true) := by
  refine ⟨by decide, rfl, ?_⟩
  exact ((replace_orders_tracking ⟨["old"], ["x", "old"]⟩
    [⟨"1", "m", OrderType.LIMIT, OrderSide.BUY, 5, 9⟩]
    (Except.ok ["k1", "k2"])).2 ["k1", "k2"] (by decide) rfl).1


/-- Every order emitted by `make_orders` is on the given side with the given
price and size. -/
theorem make_orders_fields {side : OrderSide} {market_name : String} {price size : Rat}
    {quantity client_id : Nat} :
    ∀ o ∈ make_orders side market_name price size quantity client_id,
      o.side = side ∧ o.price = price ∧ o.amount = size := by
  intro o ho
  simp only [make_orders, List.mem_map, List.mem_range] at ho
  obtain ⟨i, -, rfl⟩ := ho
  exact ⟨rfl, rfl, rfl⟩

/-- Orders emitted by a successful bid layer step are `BUY` orders carrying
the layer's computed price and size, which passed both viability gates. -/
theorem bid_layer_step_ok_mem {market_name : String} {minInc minSize P : Rat}
    {asks : List BookLevel} {index : Nat} {side : LayerSide} {client_id : Nat}
    {orders : List Order} {warnings : List ProposalWarning} {client_id2 : Nat}
    (h : bid_layer_step market_name minInc minSize P asks index side client_id
          = Except.ok (orders, warnings, client_id2)) :
    ∀ o ∈ orders, o.side = OrderSide.BUY
      ∧ ∃ a, asks.head? = some a
        ∧ o.price = layer_bid_price P a.price side
        ∧ o.amount = layer_bid_size P a.price side
        ∧ minInc ≤ o.price ∧ minSize ≤ o.amount := by
  intro o ho
  cases asks with
  | nil =>
    unfold bid_layer_step best_ask_price at h
    cases h
  | cons a t =>
    unfold bid_layer_step best_ask_price at h
    dsimp only at h
    by_cases h0 : 0 < side.quantity ∧ layer_bid_price P a.price side = 0
    · rw [if_pos h0] at h; cases h
    · rw [if_neg h0] at h
      by_cases h1 : layer_bid_price P a.price side < minInc
      · rw [if_pos h1] at h
        simp only [Except.ok.injEq, Prod.mk.injEq] at h
        rw [← h.1] at ho; cases ho
      · rw [if_neg h1] at h
        by_cases h2 : layer_bid_size P a.price side < minSize
        · rw [if_pos h2] at h
          simp only [Except.ok.injEq, Prod.mk.injEq] at h
          rw [← h.1] at ho; cases ho
        · rw [if_neg h2] at h
          simp only [Except.ok.injEq, Prod.mk.injEq] at h
          rw [← h.1] at ho
          obtain ⟨hside, hprice, hamount⟩ := make_orders_fields o ho
          refine ⟨hside, a, rfl, hprice, hamount, ?_, ?_⟩
          · rw [hprice]; exact not_lt.1 h1
          · rw [hamount]; exact not_lt.1 h2

/-- Orders emitted by a successful ask layer step are `SELL` orders carrying
the layer's computed price and size, which passed both viability gates. -/
theorem ask_layer_step_ok_mem {market_name : String} {minInc minSize P : Rat}
    {bids : List BookLevel} {index : Nat} {side : LayerSide} {client_id : Nat}
    {orders : List Order} {warnings : List ProposalWarning} {client_id2 : Nat}
    (h : ask_layer_step market_name minInc minSize P bids index side client_id
          = Except.ok (orders, warnings, client_id2)) :
    ∀ o ∈ orders, o.side = OrderSide.SELL
      ∧ ∃ b, bids.head? = some b
        ∧ o.price = layer_ask_price P b.price side
        ∧ o.amount = layer_ask_size P b.price side
        ∧ minInc ≤ o.price ∧ minSize ≤ o.amount := by
  intro o ho
  cases bids with
  | nil =>
    unfold ask_layer_step best_bid_price at h
    cases h
  | cons b t =>
    unfold ask_layer_step best_bid_price at h
    dsimp only at h
    by_cases h0 : 0 < side.quantity ∧ layer_ask_price P b.price side = 0
    · rw [if_pos h0] at h; cases h
    · rw [if_neg h0] at h
      by_cases h1 : layer_ask_price P b.price side < minInc
      · rw [if_pos h1] at h
        simp only [Except.ok.injEq, Prod.mk.injEq] at h
        rw [← h.1] at ho; cases ho
      · rw [if_neg h1] at h
        by_cases h2 : layer_ask_size P b.price side < minSize
        · rw [if_pos h2] at h
          simp only [Except.ok.injEq, Prod.mk.injEq] at h
          rw [← h.1] at ho; cases ho
        · rw [if_neg h2] at h
          simp only [Except.ok.injEq, Prod.mk.injEq] at h
          rw [← h.1] at ho
          obtain ⟨hside, hprice, hamount⟩ := make_orders_fields o ho
          refine ⟨hside, b, rfl, hprice, hamount, ?_, ?_⟩
          · rw [hprice]; exact not_lt.1 h1
          · rw [hamount]; exact not_lt.1 h2

/-- Orders collected by a successful bid layer loop are viable `BUY` orders
priced by one of the configured layers. -/
theorem bid_layers_loop_ok_mem {market_name : String} {minInc minSize P : Rat}
    {asks : List BookLevel} :
    ∀ (layers : List Layer) (index client_id : Nat) {orders : List Order}
      {warnings : List ProposalWarning} {client_id2 : Nat},
      bid_layers_loop market_name minInc minSize P asks layers index client_id
          = Except.ok (orders, warnings, client_id2) →
      ∀ o ∈ orders, o.side = OrderSide.BUY ∧ minInc ≤ o.price ∧ minSize ≤ o.amount
        ∧ ∃ layer ∈ layers, ∃ a, asks.head? = some a
            ∧ o.price = layer_bid_price P a.price layer.bid := by
  intro layers
  induction layers with
  | nil =>
    intro index client_id orders warnings client_id2 h o ho
    simp only [bid_layers_loop, Except.ok.injEq, Prod.mk.injEq] at h
    rw [← h.1] at ho
    cases ho
  | cons layer rest ih =>
    intro index client_id orders warnings client_id2 h o ho
    unfold bid_layers_loop at h
    cases hstep : bid_layer_step market_name minInc minSize P asks index layer.bid client_id with
    | error e => rw [hstep] at h; cases h
    | ok t =>
      obtain ⟨so, sw, scid⟩ := t
      rw [hstep] at h
      dsimp only at h
      cases hrest : bid_layers_loop market_name minInc minSize P asks rest (index + 1) scid with
      | error e => rw [hrest] at h; cases h
      | ok t2 =>
        obtain ⟨ro, rw2, rcid⟩ := t2
        rw [hrest] at h
        dsimp only at h
        simp only [Except.ok.injEq, Prod.mk.injEq] at h
        rw [← h.1] at ho
        rcases List.mem_append.1 ho with hmem | hmem
        · obtain ⟨hside, a, ha, hprice, -, hinc, hsize⟩ := bid_layer_step_ok_mem hstep o hmem
          exact ⟨hside, hinc, hsize, layer, List.mem_cons_self .., a, ha, hprice⟩
        · obtain ⟨hside, hinc, hsize, l, hl, a, ha, hprice⟩ := ih (index + 1) scid hrest o hmem
          exact ⟨hside, hinc, hsize, l, List.mem_cons_of_mem _ hl, a, ha, hprice⟩

/-- Orders collected by a successful ask layer loop are viable `SELL` orders
priced by one of the configured layers. -/
theorem ask_layers_loop_ok_mem {market_name : String} {minInc minSize P : Rat}
    {bids : List BookLevel} :
    ∀ (layers : List Layer) (index client_id : Nat) {orders : List Order}
      {warnings : List ProposalWarning} {client_id2 : Nat},
      ask_layers_loop market_name minInc minSize P bids layers index client_id
          = Except.ok (orders, warnings, client_id2) →
      ∀ o ∈ orders, o.side = OrderSide.SELL ∧ minInc ≤ o.price ∧ minSize ≤ o.amount
        ∧ ∃ layer ∈ layers, ∃ b, bids.head? = some b
            ∧ o.price = layer_ask_price P b.price layer.ask := by
  intro layers
  induction layers with
  | nil =>
    intro index client_id orders warnings client_id2 h o ho
    simp only [ask_layers_loop, Except.ok.injEq, Prod.mk.injEq] at h
    rw [← h.1] at ho
    cases ho
  | cons layer rest ih =>
    intro index client_id orders warnings client_id2 h o ho
    unfold ask_layers_loop at h
    cases hstep : ask_layer_step market_name minInc minSize P bids index layer.ask client_id with
    | error e => rw [hstep] at h; cases h
    | ok t =>
      obtain ⟨so, sw, scid⟩ := t
      rw [hstep] at h
      dsimp only at h
      cases hrest : ask_layers_loop market_name minInc minSize P bids rest (index + 1) scid with
      | error e => rw [hrest] at h; cases h
      | ok t2 =>
        obtain ⟨ro, rw2, rcid⟩ := t2
        rw [hrest] at h
        dsimp only at h
        simp only [Except.ok.injEq, Prod.mk.injEq] at h
        rw [← h.1] at ho
        rcases List.mem_append.1 ho with hmem | hmem
        · obtain ⟨hside, b, hb, hprice, -, hinc, hsize⟩ := ask_layer_step_ok_mem hstep o hmem
          exact ⟨hside, hinc, hsize, layer, List.mem_cons_self .., b, hb, hprice⟩
        · obtain ⟨hside, hinc, hsize, l, hl, b, hb, hprice⟩ := ih (index + 1) scid hrest o hmem
          exact ⟨hside, hinc, hsize, l, List.mem_cons_of_mem _ hl, b, hb, hprice⟩

/-- A successful `create_proposal` run had a strictly positive reference
price, and every order of the proposal is a viable bid or ask priced by one
of the configured layers. -/
theorem create_proposal_ok_mem {market_name : String} {market : Market}
    {layers : List Layer} {bids asks : List BookLevel} {P : Rat}
    {orders : List Order} {warnings : List ProposalWarning}
    (h : create_proposal market_name market layers bids asks P
          = Except.ok (orders, warnings)) :
    0 < P ∧ ∀ o ∈ orders,
      market.minimumPriceIncrement ≤ o.price ∧ market.minimumOrderSize ≤ o.amount
      ∧ ((o.side = OrderSide.BUY
            ∧ ∃ layer ∈ layers, ∃ a, asks.head? = some a
                ∧ o.price = layer_bid_price P a.price layer.bid)
        ∨ (o.side = OrderSide.SELL
            ∧ ∃ layer ∈ layers, ∃ b, bids.head? = some b
                ∧ o.price = layer_ask_price P b.price layer.ask)) := by
  unfold create_proposal at h
  by_cases hpos : P ≤ 0
  · rw [if_pos hpos] at h; cases h
  · rw [if_neg hpos] at h
    refine ⟨not_le.1 hpos, ?_⟩
    intro o ho
    cases hbid : bid_layers_loop market_name market.minimumPriceIncrement
        market.minimumOrderSize P asks layers 1 1 with
    | error e => rw [hbid] at h; cases h
    | ok t =>
      obtain ⟨bid_orders, bid_warnings, next_cid⟩ := t
      rw [hbid] at h
      dsimp only at h
      cases hask : ask_layers_loop market_name market.minimumPriceIncrement
          market.minimumOrderSize P bids layers 1 next_cid with
      | error e => rw [hask] at h; cases h
      | ok t2 =>
        obtain ⟨ask_orders, ask_warnings, final_cid⟩ := t2
        rw [hask] at h
        dsimp only at h
        simp only [Except.ok.injEq, Prod.mk.injEq] at h
        rw [← h.1] at ho
        rcases List.mem_append.1 ho with hmem | hmem
        · obtain ⟨hside, hinc, hsize, l, hl, a, ha, hprice⟩ :=
            bid_layers_loop_ok_mem layers 1 1 hbid o hmem
          exact ⟨hinc, hsize, Or.inl ⟨hside, l, hl, a, ha, hprice⟩⟩
        · obtain ⟨hside, hinc, hsize, l, hl, b, hb, hprice⟩ :=
            ask_layers_loop_ok_mem layers 1 next_cid hask o hmem
          exact ⟨hinc, hsize, Or.inr ⟨hside, l, hl, b, hb, hprice⟩⟩

/-- With a non-negative spread, a positive reference price and a
non-negative best ask, the computed bid layer price cannot exceed the best
ask. -/
theorem layer_bid_price_le_best_ask {P best_ask : Rat} {side : LayerSide}
    (hs : 0 ≤ side.spread_percentage) (hP : 0 < P) (hap : 0 ≤ best_ask) :
    layer_bid_price P best_ask side ≤ best_ask := by
  have hm_le : (if P ≤ best_ask then P else best_ask) ≤ best_ask := by
    by_cases hc : P ≤ best_ask
    · rw [if_pos hc]; exact hc
    · rw [if_neg hc]
  have hm_nonneg : 0 ≤ (if P ≤ best_ask then P else best_ask) := by
    by_cases hc : P ≤ best_ask
    · rw [if_pos hc]; exact le_of_lt hP
    · rw [if_neg hc]; exact hap
  have hcoeff : (100 - side.spread_percentage) / 100 ≤ 1 := by
    rw [div_le_one (by norm_num : (0:Rat) < 100)]
    linarith
  unfold layer_bid_price
  calc ((100 - side.spread_percentage) / 100) * (if P ≤ best_ask then P else best_ask)
      ≤ (if P ≤ best_ask then P else best_ask) := mul_le_of_le_one_left hm_nonneg hcoeff
    _ ≤ best_ask := hm_le

/-- With a non-negative spread and a positive reference price, the computed
ask layer price is at least the best bid. -/
theorem best_bid_le_layer_ask_price {P best_bid : Rat} {side : LayerSide}
    (hs : 0 ≤ side.spread_percentage) (hP : 0 < P) :
    best_bid ≤ layer_ask_price P best_bid side := by
  have hm_ge : best_bid ≤ (if P ≤ best_bid then best_bid else P) := by
    by_cases hc : P ≤ best_bid
    · rw [if_pos hc]
    · rw [if_neg hc]; exact le_of_lt (not_le.1 hc)
  have hm_nonneg : 0 ≤ (if P ≤ best_bid then best_bid else P) := by
    by_cases hc : P ≤ best_bid
    · rw [if_pos hc]; exact le_trans (le_of_lt hP) hc
    · rw [if_neg hc]; exact le_of_lt hP
  have hcoeff : 1 ≤ (100 + side.spread_percentage) / 100 := by
    rw [one_le_div (by norm_num : (0:Rat) < 100)]
    linarith
  unfold layer_ask_price
  calc best_bid ≤ (if P ≤ best_bid then best_bid else P) := hm_ge
    _ ≤ ((100 + side.spread_percentage) / 100) * (if P ≤ best_bid then best_bid else P) :=
        le_mul_of_one_le_left hm_nonneg hcoeff

/-- C2: every order of a successfully built proposal satisfies
`price ≥ minimumPriceIncrement` and `amount ≥ minimumOrderSize`; a layer
side whose computed price (resp. size) falls below the threshold — the
computed price reads the best level of the opposite book side, so it exists
exactly when that side is non-empty — contributes no orders and logs a
price-too-low (resp. size-too-low) warning. -/
theorem proposal_orders_meet_market_minimums (market_name : String) (market : Market)
    (layers : List Layer) (bids asks : List BookLevel) (P : Rat) :
    (∀ orders warnings,
        create_proposal market_name market layers bids asks P
            = Except.ok (orders, warnings) →
        ∀ o ∈ orders,
          market.minimumPriceIncrement ≤ o.price ∧ market.minimumOrderSize ≤ o.amount)
    ∧ (∀ index side client_id a, asks.head? = some a →
        ¬ (0 < side.quantity ∧ layer_bid_price P a.price side = 0) →
        layer_bid_price P a.price side < market.minimumPriceIncrement →
        bid_layer_step market_name market.minimumPriceIncrement market.minimumOrderSize
            P asks index side client_id
          = Except.ok ([], [ProposalWarning.bidPriceTooLow index], client_id))
    ∧ (∀ index side client_id a, asks.head? = some a →
        ¬ (0 < side.quantity ∧ layer_bid_price P a.price side = 0) →
        ¬ layer_bid_price P a.price side < market.minimumPriceIncrement →
        layer_bid_size P a.price side < market.minimumOrderSize →
        bid_layer_step market_name market.minimumPriceIncrement market.minimumOrderSize
            P asks index side client_id
          = Except.ok ([], [ProposalWarning.bidSizeTooLow index], client_id))
    ∧ (∀ index side client_id b, bids.head? = some b →
        ¬ (0 < side.quantity ∧ layer_ask_price P b.price side = 0) →
        layer_ask_price P b.price side < market.minimumPriceIncrement →
        ask_layer_step market_name market.minimumPriceIncrement market.minimumOrderSize
            P bids index side client_id
          = Except.ok ([], [ProposalWarning.askPriceTooLow index], client_id))
    ∧ (∀ index side client_id b, bids.head? = some b →
        ¬ (0 < side.quantity ∧ layer_ask_price P b.price side = 0) →
        ¬ layer_ask_price P b.price side < market.minimumPriceIncrement →
        layer_ask_size P b.price side < market.minimumOrderSize →
        ask_layer_step market_name market.minimumPriceIncrement market.minimumOrderSize
            P bids index side client_id
          = Except.ok ([], [ProposalWarning.askSizeTooLow index], client_id)) := by
  refine ⟨?_, ?_, ?_, ?_, ?_⟩
  · intro orders warnings h o ho
    obtain ⟨-, hmem⟩ := create_proposal_ok_mem h
    exact ⟨(hmem o ho).1, (hmem o ho).2.1⟩
  · intro index side client_id a ha h0 h1
    cases asks with
    | nil => simp at ha
    | cons a' t =>
      obtain rfl : a' = a := by simpa using ha
      unfold bid_layer_step best_ask_price
      dsimp only
      rw [if_neg h0, if_pos h1]
  · intro index side client_id a ha h0 h1 h2
    cases asks with
    | nil => simp at ha
    | cons a' t =>
      obtain rfl : a' = a := by simpa using ha
      unfold bid_layer_step best_ask_price
      dsimp only
      rw [if_neg h0, if_neg h1, if_pos h2]
  · intro index side client_id b hb h0 h1
    cases bids with
    | nil => simp at hb
    | cons b' t =>
      obtain rfl : b' = b := by simpa using hb
      unfold ask_layer_step best_bid_price
      dsimp only
      rw [if_neg h0, if_pos h1]
  · intro index side client_id b hb h0 h1 h2
    cases bids with
    | nil => simp at hb
    | cons b' t =>
      obtain rfl : b' = b := by simpa using hb
      unfold ask_layer_step best_bid_price
      dsimp only
      rw [if_neg h0, if_neg h1, if_pos h2]

/-- Witness for C2, the spec's scenario S1: book bids `[{10,1}]`, asks
`[{12,1}]`, reference `11`, one layer with 10% spread and $100 liquidity on
a market with increments of `1/1000`: both emitted orders respect the
market minimums. -/
theorem proposal_orders_meet_market_minimums_witness :
    create_proposal "m" ⟨1/1000, 1/1000⟩ [⟨⟨1, 10, 100⟩, ⟨1, 10, 100⟩⟩]
        [⟨10, 1⟩] [⟨12, 1⟩] 11
      = Except.ok ([⟨"1", "m", OrderType.LIMIT, OrderSide.BUY, 1000/99, 99/10⟩,
                    ⟨"2", "m", OrderType.LIMIT, OrderSide.SELL, 1000/121, 121/10⟩], [])
    ∧ ((1:Rat)/1000 ≤ 99/10 ∧ (1:Rat)/1000 ≤ 1000/99) := by
  have hcp : create_proposal "m" ⟨1/1000, 1/1000⟩ [⟨⟨1, 10, 100⟩, ⟨1, 10, 100⟩⟩]
        [⟨10, 1⟩] [⟨12, 1⟩] 11
      = Except.ok ([⟨"1", "m", OrderType.LIMIT, OrderSide.BUY, 1000/99, 99/10⟩,
                    ⟨"2", "m", OrderType.LIMIT, OrderSide.SELL, 1000/121, 121/10⟩], []) := by
    norm_num [create_proposal, bid_layers_loop, ask_layers_loop, bid_layer_step,
      ask_layer_step, layer_bid_price, layer_bid_size, layer_ask_price, layer_ask_size,
      best_ask_price, best_bid_price, make_orders, List.range_succ]
    constructor <;> rfl
  refine ⟨hcp, ?_⟩
  exact (proposal_orders_meet_market_minimums "m" ⟨1/1000, 1/1000⟩
    [⟨⟨1, 10, 100⟩, ⟨1, 10, 100⟩⟩] [⟨10, 1⟩] [⟨12, 1⟩] 11).1 _ _ hcp
    ⟨"1", "m", OrderType.LIMIT, OrderSide.BUY, 1000/99, 99/10⟩ (by simp)

/-- Counterexample to C5 as stated: on a (pathological) book whose only ask
has price `-1` and whose only bid has price `1/2`, a layer with the
non-negative bid spread `200` emits a `BUY` order at price `1`, which
exceeds the best ask `-1`; the claim's clamp argument fails for a negative
best ask. -/
theorem bid_order_can_cross_negative_best_ask :
    create_proposal "m" ⟨0, 0⟩ [⟨⟨1, 200, 100⟩, ⟨0, 0, 0⟩⟩] [⟨1/2, 1⟩] [⟨-1, 1⟩] 5
      = Except.ok ([⟨"1", "m", OrderType.LIMIT, OrderSide.BUY, 100, 1⟩], [])
    ∧ (0:Rat) ≤ 200
    ∧ best_ask_price [⟨-1, 1⟩] = Except.ok (-1)
    ∧ ¬ ((1:Rat) ≤ -1) := by
  refine ⟨?_, by norm_num, rfl, by norm_num⟩
  norm_num [create_proposal, bid_layers_loop, ask_layers_loop, bid_layer_step,
    ask_layer_step, layer_bid_price, layer_bid_size, layer_ask_price, layer_ask_size,
    best_ask_price, best_bid_price, make_orders, List.range_succ]
  rfl

/-- C5 (amended): in a successfully built proposal with non-negative
per-layer spreads, every ask order's price is at least the best bid,
unconditionally; and every bid order's price is at most the best ask
whenever that best ask is non-negative.  (A book side that is empty while
any layer is configured makes the builder raise on the plain-dict default
instead of returning a proposal, so a successful proposal with orders
always has both best-of-book levels.) -/
theorem proposal_orders_stay_inside_book {market_name : String} {market : Market}
    {layers : List Layer} {bids asks : List BookLevel} {P : Rat}
    {orders : List Order} {warnings : List ProposalWarning}
    (h : create_proposal market_name market layers bids asks P
          = Except.ok (orders, warnings))
    (hspread : ∀ layer ∈ layers,
        0 ≤ layer.bid.spread_percentage ∧ 0 ≤ layer.ask.spread_percentage) :
    ∀ o ∈ orders,
      (o.side = OrderSide.BUY → ∀ a, asks.head? = some a → 0 ≤ a.price →
          o.price ≤ a.price)
      ∧ (o.side = OrderSide.SELL → ∀ b, bids.head? = some b → b.price ≤ o.price) := by
  obtain ⟨hP, hmem⟩ := create_proposal_ok_mem h
  intro o ho
  obtain ⟨-, -, hcase⟩ := hmem o ho
  constructor
  · intro hbuy a ha hap
    rcases hcase with ⟨-, l, hl, a', ha', hprice⟩ | ⟨hsell, -⟩
    · obtain rfl : a' = a := Option.some.inj (ha'.symm.trans ha)
      rw [hprice]
      exact layer_bid_price_le_best_ask (hspread l hl).1 hP hap
    · rw [hbuy] at hsell
      exact OrderSide.noConfusion hsell
  · intro hsell b hb
    rcases hcase with ⟨hbuy, -⟩ | ⟨-, l, hl, b', hb', hprice⟩
    · rw [hsell] at hbuy
      exact OrderSide.noConfusion hbuy
    · obtain rfl : b' = b := Option.some.inj (hb'.symm.trans hb)
      rw [hprice]
      exact best_bid_le_layer_ask_price (hspread l hl).2 hP

/-- Witness for the amended C5, scenario S1: the bid at `9.9` stays below
the best ask `12` and the ask at `12.1` stays above the best bid `10`. -/
theorem proposal_orders_stay_inside_book_witness :
    create_proposal "m" ⟨1/1000, 1/1000⟩ [⟨⟨1, 10, 100⟩, ⟨1, 10, 100⟩⟩]
        [⟨10, 1⟩] [⟨12, 1⟩] 11
      = Except.ok ([⟨"1", "m", OrderType.LIMIT, OrderSide.BUY, 1000/99, 99/10⟩,
                    ⟨"2", "m", OrderType.LIMIT, OrderSide.SELL, 1000/121, 121/10⟩], [])
    ∧ (99:Rat)/10 ≤ 12 ∧ (10:Rat) ≤ 121/10 := by
  have hcp : create_proposal "m" ⟨1/1000, 1/1000⟩ [⟨⟨1, 10, 100⟩, ⟨1, 10, 100⟩⟩]
        [⟨10, 1⟩] [⟨12, 1⟩] 11
      = Except.ok ([⟨"1", "m", OrderType.LIMIT, OrderSide.BUY, 1000/99, 99/10⟩,
                    ⟨"2", "m", OrderType.LIMIT, OrderSide.SELL, 1000/121, 121/10⟩], []) := by
    norm_num [create_proposal, bid_layers_loop, ask_layers_loop, bid_layer_step,
      ask_layer_step, layer_bid_price, layer_bid_size, layer_ask_price, layer_ask_size,
      best_ask_price, best_bid_price, make_orders, List.range_succ]
    constructor <;> rfl
  have hall := proposal_orders_stay_inside_book hcp
    (by intro layer hl; simp only [List.mem_singleton] at hl; rw [hl]; constructor <;> norm_num)
  refine ⟨hcp, ?_, ?_⟩
  · have h1 := (hall ⟨"1", "m", OrderType.LIMIT, OrderSide.BUY, 1000/99, 99/10⟩
      (by simp)).1 rfl ⟨12, 1⟩ rfl (by norm_num)
    exact h1
  · have h2 := (hall ⟨"2", "m", OrderType.LIMIT, OrderSide.SELL, 1000/121, 121/10⟩
      (by simp)).2 rfl ⟨10, 1⟩ rfl
    exact h2

/-- A bid layer step on a non-empty ask side only fails when a positive
quantity meets a zero layer price (the unguarded division); otherwise it
succeeds. -/
theorem bid_layer_step_total (market_name : String) (minInc minSize P : Rat)
    (asks : List BookLevel) (index : Nat) (side : LayerSide) (client_id : Nat)
    (a : BookLevel) (ha : asks.head? = some a)
    (h0 : ¬ (0 < side.quantity ∧ layer_bid_price P a.price side = 0)) :
    ∃ r, bid_layer_step market_name minInc minSize P asks index side client_id
          = Except.ok r := by
  cases asks with
  | nil => simp at ha
  | cons a' t =>
    obtain rfl : a' = a := by simpa using ha
    unfold bid_layer_step best_ask_price
    dsimp only
    rw [if_neg h0]
    by_cases h1 : layer_bid_price P a'.price side < minInc
    · rw [if_pos h1]; exact ⟨_, rfl⟩
    · rw [if_neg h1]
      by_cases h2 : layer_bid_size P a'.price side < minSize
      · rw [if_pos h2]; exact ⟨_, rfl⟩
      · rw [if_neg h2]; exact ⟨_, rfl⟩

/-- An ask layer step on a non-empty bid side only fails when a positive
quantity meets a zero layer price; otherwise it succeeds. -/
theorem ask_layer_step_total (market_name : String) (minInc minSize P : Rat)
    (bids : List BookLevel) (index : Nat) (side : LayerSide) (client_id : Nat)
    (b : BookLevel) (hb : bids.head? = some b)
    (h0 : ¬ (0 < side.quantity ∧ layer_ask_price P b.price side = 0)) :
    ∃ r, ask_layer_step market_name minInc minSize P bids index side client_id
          = Except.ok r := by
  cases bids with
  | nil => simp at hb
  | cons b' t =>
    obtain rfl : b' = b := by simpa using hb
    unfold ask_layer_step best_bid_price
    dsimp only
    rw [if_neg h0]
    by_cases h1 : layer_ask_price P b'.price side < minInc
    · rw [if_pos h1]; exact ⟨_, rfl⟩
    · rw [if_neg h1]
      by_cases h2 : layer_ask_size P b'.price side < minSize
      · rw [if_pos h2]; exact ⟨_, rfl⟩
      · rw [if_neg h2]; exact ⟨_, rfl⟩

/-- The bid layer loop succeeds whenever, for each configured layer, the
ask side is non-empty and a positive quantity never meets a zero computed
bid price. -/
theorem bid_layers_loop_total (market_name : String) (minInc minSize P : Rat)
    (asks : List BookLevel) :
    ∀ (layers : List Layer) (index client_id : Nat),
      (∀ layer ∈ layers, ∃ a, asks.head? = some a
          ∧ (0 < layer.bid.quantity → layer_bid_price P a.price layer.bid ≠ 0)) →
      ∃ r, bid_layers_loop market_name minInc minSize P asks layers index client_id
            = Except.ok r := by
  intro layers
  induction layers with
  | nil => intro index client_id hlay; exact ⟨_, rfl⟩
  | cons layer rest ih =>
    intro index client_id hlay
    obtain ⟨a, ha, hnz⟩ := hlay layer (List.mem_cons_self ..)
    have h0 : ¬ (0 < layer.bid.quantity ∧ layer_bid_price P a.price layer.bid = 0) := by
      rintro ⟨hq, hz⟩
      exact hnz hq hz
    obtain ⟨⟨so, sw, scid⟩, hr⟩ :=
      bid_layer_step_total market_name minInc minSize P asks index layer.bid client_id a ha h0
    obtain ⟨⟨ro, rw2, rcid⟩, hrest⟩ :=
      ih (index + 1) scid (fun l hl => hlay l (List.mem_cons_of_mem _ hl))
    refine ⟨(so ++ ro, sw ++ rw2, rcid), ?_⟩
    unfold bid_layers_loop
    rw [hr]
    dsimp only
    rw [hrest]

/-- The ask layer loop succeeds whenever, for each configured layer, the
bid side is non-empty and a positive quantity never meets a zero computed
ask price. -/
theorem ask_layers_loop_total (market_name : String) (minInc minSize P : Rat)
    (bids : List BookLevel) :
    ∀ (layers : List Layer) (index client_id : Nat),
      (∀ layer ∈ layers, ∃ b, bids.head? = some b
          ∧ (0 < layer.ask.quantity → layer_ask_price P b.price layer.ask ≠ 0)) →
      ∃ r, ask_layers_loop market_name minInc minSize P bids layers index client_id
            = Except.ok r := by
  intro layers
  induction layers with
  | nil => intro index client_id hlay; exact ⟨_, rfl⟩
  | cons layer rest ih =>
    intro index client_id hlay
    obtain ⟨b, hb, hnz⟩ := hlay layer (List.mem_cons_self ..)
    have h0 : ¬ (0 < layer.ask.quantity ∧ layer_ask_price P b.price layer.ask = 0) := by
      rintro ⟨hq, hz⟩
      exact hnz hq hz
    obtain ⟨⟨so, sw, scid⟩, hr⟩ :=
      ask_layer_step_total market_name minInc minSize P bids index layer.ask client_id b hb h0
    obtain ⟨⟨ro, rw2, rcid⟩, hrest⟩ :=
      ih (index + 1) scid (fun l hl => hlay l (List.mem_cons_of_mem _ hl))
    refine ⟨(so ++ ro, sw ++ rw2, rcid), ?_⟩
    unfold ask_layers_loop
    rw [hr]
    dsimp only
    rw [hrest]

/-- C10: the per-layer size expression divides the liquidity budget by the
computed layer price without a zero guard: on a book with a best ask, a
positive-quantity layer whose bid spread is `100` (zero computed price)
makes the builder raise the division error instead of emitting or
skipping; in general any layer step whose positive quantity meets a zero
computed price raises it; and the emit path is total under the
precondition that every configured layer finds its best-of-book level and
computes a non-zero price for a positive quantity (with a valid reference
price). -/
theorem proposal_size_division_unguarded :
    create_proposal "m" ⟨0, 0⟩ [⟨⟨1, 100, 100⟩, ⟨0, 0, 0⟩⟩] [⟨10, 1⟩] [⟨12, 1⟩] 5
        = Except.error ProposalError.divisionByZero
    ∧ (∀ (market_name : String) (minInc minSize P : Rat) (asks : List BookLevel)
          (a : BookLevel) (index : Nat) (side : LayerSide) (client_id : Nat),
        asks.head? = some a → 0 < side.quantity → layer_bid_price P a.price side = 0 →
        bid_layer_step market_name minInc minSize P asks index side client_id
          = Except.error ProposalError.divisionByZero)
    ∧ (∀ (market_name : String) (minInc minSize P : Rat) (bids : List BookLevel)
          (b : BookLevel) (index : Nat) (side : LayerSide) (client_id : Nat),
        bids.head? = some b → 0 < side.quantity → layer_ask_price P b.price side = 0 →
        ask_layer_step market_name minInc minSize P bids index side client_id
          = Except.error ProposalError.divisionByZero)
    ∧ (∀ (market_name : String) (market : Market) (layers : List Layer)
          (bids asks : List BookLevel) (P : Rat), 0 < P →
        (∀ layer ∈ layers,
            (∃ a, asks.head? = some a
              ∧ (0 < layer.bid.quantity → layer_bid_price P a.price layer.bid ≠ 0))
            ∧ (∃ b, bids.head? = some b
              ∧ (0 < layer.ask.quantity → layer_ask_price P b.price layer.ask ≠ 0))) →
        ∃ r, create_proposal market_name market layers bids asks P = Except.ok r) := by
  refine ⟨?_, ?_, ?_, ?_⟩
  · norm_num [create_proposal, bid_layers_loop, bid_layer_step, best_ask_price,
      layer_bid_price]
  · intro market_name minInc minSize P asks a index side client_id ha hq hz
    cases asks with
    | nil => simp at ha
    | cons a' t =>
      obtain rfl : a' = a := by simpa using ha
      unfold bid_layer_step best_ask_price
      dsimp only
      rw [if_pos ⟨hq, hz⟩]
  · intro market_name minInc minSize P bids b index side client_id hb hq hz
    cases bids with
    | nil => simp at hb
    | cons b' t =>
      obtain rfl : b' = b := by simpa using hb
      unfold ask_layer_step best_bid_price
      dsimp only
      rw [if_pos ⟨hq, hz⟩]
  · intro market_name market layers bids asks P hP hlay
    obtain ⟨⟨bo, bw, bc⟩, hb⟩ := bid_layers_loop_total market_name
      market.minimumPriceIncrement market.minimumOrderSize P asks layers 1 1
      (fun l hl => (hlay l hl).1)
    obtain ⟨⟨ao, aw, ac⟩, ha⟩ := ask_layers_loop_total market_name
      market.minimumPriceIncrement market.minimumOrderSize P bids layers 1 bc
      (fun l hl => (hlay l hl).2)
    refine ⟨(bo ++ ao, bw ++ aw), ?_⟩
    unfold create_proposal
    rw [if_neg (not_le.2 hP), hb]
    dsimp only
    rw [ha]

/-- Witness for C10: a single layer over a two-sided book with positive
computed prices yields a successful proposal, and a concrete zero-price
bid step raises the division error. -/
theorem proposal_size_division_unguarded_witness :
    (0:Rat) < 11
    ∧ (∃ r, create_proposal "m" ⟨1/1000, 1/1000⟩ [⟨⟨1, 10, 100⟩, ⟨1, 10, 100⟩⟩]
        [⟨10, 1⟩] [⟨12, 1⟩] 11 = Except.ok r)
    ∧ bid_layer_step "m" 0 0 5 [⟨12, 1⟩] 1 ⟨1, 100, 100⟩ 1
        = Except.error ProposalError.divisionByZero := by
  refine ⟨by norm_num, ?_, ?_⟩
  · refine proposal_size_division_unguarded.2.2.2 "m" ⟨1/1000, 1/1000⟩
      [⟨⟨1, 10, 100⟩, ⟨1, 10, 100⟩⟩] [⟨10, 1⟩] [⟨12, 1⟩] 11 (by norm_num) ?_
    intro layer hl
    simp only [List.mem_singleton] at hl
    rw [hl]
    constructor
    · exact ⟨⟨12, 1⟩, rfl, fun hq => by norm_num [layer_bid_price]⟩
    · exact ⟨⟨10, 1⟩, rfl, fun hq => by norm_num [layer_ask_price]⟩
  · exact proposal_size_division_unguarded.2.1 "m" 0 0 5 [⟨12, 1⟩] ⟨12, 1⟩ 1
      ⟨1, 100, 100⟩ 1 rfl (by norm_num) (by norm_num [layer_bid_price])

/-- Counterexample to C3 as stated: with the price strategy `MIDDLE` and no
explicit middle-price sub-strategy configured, `_create_proposal` resolves
the `.get` default `SAP` and passes it (a truthy enum member) to
`_get_market_middle_price`, so the reference price is the SAP value `7`
even though the VWAP attempt would succeed with `42`; VWAP is never
attempted first as the claim requires. -/
theorem middle_default_skips_vwap_chain :
    middle_used_price middle_calculate_cex (Except.ok 5) none = Except.ok 7
    ∧ middle_calculate_cex MiddlePriceStrategy.VWAP = Except.ok 42
    ∧ (Except.ok 7 : Except Unit Rat) ≠ Except.ok 42 := by
  refine ⟨rfl, rfl, ?_⟩
  intro h
  have h42 : (7 : Rat) = 42 := by
    injection h
  norm_num at h42

/-- C3 (amended): when `MIDDLE` is selected with no explicit sub-strategy
configured, the tick path uses SAP directly (the configuration `.get`
default); the VWAP → WAP → SAP → ticker chain, each failure swallowed, is
the behavior of `_get_market_middle_price` only when it is invoked without
a strategy argument, which the tick path never does. -/
theorem middle_price_dispatch_and_fallback_chain {ε : Type}
    (calculate : MiddlePriceStrategy → Except ε Rat) (get_market_price : Except ε Rat) :
    middle_used_price calculate get_market_price none
        = calculate MiddlePriceStrategy.SAP
    ∧ (∀ s, middle_used_price calculate get_market_price (some s) = calculate s)
    ∧ (∀ p, calculate MiddlePriceStrategy.VWAP = Except.ok p →
        get_market_middle_price calculate get_market_price none = Except.ok p)
    ∧ (∀ e p, calculate MiddlePriceStrategy.VWAP = Except.error e →
        calculate MiddlePriceStrategy.WAP = Except.ok p →
        get_market_middle_price calculate get_market_price none = Except.ok p)
    ∧ (∀ e1 e2 p, calculate MiddlePriceStrategy.VWAP = Except.error e1 →
        calculate MiddlePriceStrategy.WAP = Except.error e2 →
        calculate MiddlePriceStrategy.SAP = Except.ok p →
        get_market_middle_price calculate get_market_price none = Except.ok p)
    ∧ (∀ e1 e2 e3, calculate MiddlePriceStrategy.VWAP = Except.error e1 →
        calculate MiddlePriceStrategy.WAP = Except.error e2 →
        calculate MiddlePriceStrategy.SAP = Except.error e3 →
        get_market_middle_price calculate get_market_price none = get_market_price) := by
  refine ⟨rfl, fun s => rfl, ?_, ?_, ?_, ?_⟩
  · intro p hv
    unfold get_market_middle_price
    rw [hv]
  · intro e p hv hw
    unfold get_market_middle_price
    rw [hv, hw]
  · intro e1 e2 p hv hw hs
    unfold get_market_middle_price
    rw [hv, hw, hs]
  · intro e1 e2 e3 hv hw hs
    unfold get_market_middle_price
    rw [hv, hw, hs]

/-- Witness for the amended C3: with VWAP and WAP failing and SAP yielding
`7`, the strategy-less chain returns `7`; and the tick path with no
configured sub-strategy also returns the SAP value. -/
theorem middle_price_dispatch_and_fallback_chain_witness :
    ((fun s => match s with
        | MiddlePriceStrategy.VWAP => Except.error ()
        | MiddlePriceStrategy.WAP => Except.error ()
        | MiddlePriceStrategy.SAP => Except.ok 7) : MiddlePriceStrategy → Except Unit Rat)
        MiddlePriceStrategy.VWAP = Except.error ()
    ∧ get_market_middle_price
        (fun s => match s with
          | MiddlePriceStrategy.VWAP => Except.error ()
          | MiddlePriceStrategy.WAP => Except.error ()
          | MiddlePriceStrategy.SAP => Except.ok 7) (Except.ok 3) none = Except.ok 7
    ∧ middle_used_price
        (fun s => match s with
          | MiddlePriceStrategy.VWAP => Except.error ()
          | MiddlePriceStrategy.WAP => Except.error ()
          | MiddlePriceStrategy.SAP => Except.ok 7) (Except.ok 3) none = Except.ok 7 := by
  refine ⟨rfl, ?_, ?_⟩
  · exact (middle_price_dispatch_and_fallback_chain
      (fun s => match s with
        | MiddlePriceStrategy.VWAP => Except.error ()
        | MiddlePriceStrategy.WAP => Except.error ()
        | MiddlePriceStrategy.SAP => Except.ok 7) (Except.ok 3)).2.2.2.2.1 () () 7
      rfl rfl rfl
  · exact (middle_price_dispatch_and_fallback_chain
      (fun s => match s with
        | MiddlePriceStrategy.VWAP => Except.error ()
        | MiddlePriceStrategy.WAP => Except.error ()
        | MiddlePriceStrategy.SAP => Except.ok 7) (Except.ok 3)).1

/-- C7: the SAP reference price is `(bestAsk + bestBid) / 2` where a
missing side contributes `0` (best ask is the minimum ask price, best bid
the maximum bid price); on a book empty on both sides it is `0`, and the
proposal builder then fails with the invalid-price error, since it rejects
any reference price not strictly positive. -/
theorem sap_reference_and_empty_book_fails :
    (∀ bids asks : List BookLevel,
        calculate_middle_price bids asks MiddlePriceStrategy.SAP
          = ((if asks.length = 0 then 0 else list_min (asks.map (·.price)))
             + (if bids.length = 0 then 0 else list_max (bids.map (·.price)))) / 2)
    ∧ calculate_middle_price [] [] MiddlePriceStrategy.SAP = 0
    ∧ (∀ (market_name : String) (market : Market) (layers : List Layer),
        create_proposal market_name market layers [] []
            (calculate_middle_price [] [] MiddlePriceStrategy.SAP)
          = Except.error (ProposalError.invalidPrice 0)) := by
  refine ⟨?_, ?_, ?_⟩
  · intro bids asks
    cases asks <;> cases bids <;>
      simp [calculate_middle_price, list_min, list_max]
  · norm_num [calculate_middle_price]
  · intro market_name market layers
    have h0 : calculate_middle_price [] [] MiddlePriceStrategy.SAP = 0 := by
      norm_num [calculate_middle_price]
    rw [h0]
    unfold create_proposal
    rw [if_pos (by norm_num : (0:Rat) ≤ 0)]

/-! ## Duplicate-scan lemmas and C9 -/

instance {ι : Type} [LinearOrder ι] :
    IsTotal (OpenOrder ι) (fun a b => a.id ≤ b.id) :=
  ⟨fun a b => le_total a.id b.id⟩

instance {ι : Type} [LinearOrder ι] :
    IsTrans (OpenOrder ι) (fun a b => a.id ≤ b.id) :=
  ⟨fun _ _ _ h1 h2 => le_trans h1 h2⟩

theorem filter_client_singleton {ι : Type} (c : String) (a : OpenOrder ι) :
    List.filter (fun o => o.clientId = c) [a]
      = if a.clientId = c then [a] else [] := by
  by_cases h : a.clientId = c
  · simp [List.filter, h]
  · simp [List.filter, h]

theorem insert_into_groups_invariant {ι : Type} {processed : List (OpenOrder ι)}
    {groups : List (String × List (OpenOrder ι))} (o : OpenOrder ι)
    (hinv : groups_invariant processed groups) :
    groups_invariant (processed ++ [o]) (insert_into_groups groups o) := by
  obtain ⟨h1, h2⟩ := hinv
  unfold insert_into_groups
  by_cases h0 : o.clientId = "0"
  · rw [if_pos h0]
    constructor
    · intro g hg
      obtain ⟨hne0, hne, hfilter⟩ := h1 g hg
      refine ⟨hne0, hne, ?_⟩
      rw [List.filter_append, filter_client_singleton,
        if_neg (fun hc => hne0 (h0 ▸ hc.symm)), List.append_nil, hfilter]
    · intro o' ho' hne'
      rcases List.mem_append.1 ho' with hmem | hmem
      · exact h2 o' hmem hne'
      · rw [List.mem_singleton] at hmem
        rw [hmem] at hne'
        exact absurd h0 hne'
  · rw [if_neg h0]
    by_cases hany : groups.any (fun g => g.1 = o.clientId)
    · rw [if_pos hany]
      constructor
      · intro g' hg'
        rw [List.mem_map] at hg'
        obtain ⟨g, hg, rfl⟩ := hg'
        obtain ⟨hne0, hne, hfilter⟩ := h1 g hg
        by_cases hc : g.1 = o.clientId
        · rw [if_pos hc]
          refine ⟨hne0, by simp, ?_⟩
          rw [List.filter_append, filter_client_singleton, if_pos hc.symm, hfilter]
        · rw [if_neg hc]
          refine ⟨hne0, hne, ?_⟩
          rw [List.filter_append, filter_client_singleton,
            if_neg (fun hcc => hc hcc.symm), List.append_nil, hfilter]
      · intro o' ho' hne'
        rcases List.mem_append.1 ho' with hmem | hmem
        · obtain ⟨g, hg, hgid⟩ := h2 o' hmem hne'
          by_cases hc : g.1 = o.clientId
          · refine ⟨(g.1, g.2 ++ [o]), ?_, hgid⟩
            rw [List.mem_map]
            exact ⟨g, hg, by rw [if_pos hc]⟩
          · refine ⟨g, ?_, hgid⟩
            rw [List.mem_map]
            exact ⟨g, hg, by rw [if_neg hc]⟩
        · rw [List.mem_singleton] at hmem
          rw [List.any_eq_true] at hany
          obtain ⟨g, hg, hgid⟩ := hany
          rw [decide_eq_true_eq] at hgid
          refine ⟨(g.1, g.2 ++ [o]), ?_, by rw [hgid, hmem]⟩
          rw [List.mem_map]
          exact ⟨g, hg, by rw [if_pos hgid]⟩
    · rw [if_neg hany]
      have hnone : ∀ g ∈ groups, g.1 ≠ o.clientId := by
        intro g hg hc
        exact hany (List.any_eq_true.2 ⟨g, hg, decide_eq_true hc⟩)
      constructor
      · intro g hg
        rcases List.mem_append.1 hg with hmem | hmem
        · obtain ⟨hne0, hne, hfilter⟩ := h1 g hmem
          refine ⟨hne0, hne, ?_⟩
          rw [List.filter_append, filter_client_singleton,
            if_neg (fun hcc => hnone g hmem hcc.symm), List.append_nil, hfilter]
        · rw [List.mem_singleton] at hmem
          rw [hmem]
          have hpfx : List.filter (fun o' => o'.clientId = o.clientId) processed = [] := by
            rw [List.filter_eq_nil_iff]
            intro a ha
            rw [decide_eq_true_eq]
            intro hac
            obtain ⟨g, hg, hgid⟩ := h2 a ha (by rw [hac]; exact h0)
            exact hnone g hg (by rw [hgid, hac])
          refine ⟨h0, by simp, ?_⟩
          rw [List.filter_append, hpfx, filter_client_singleton, if_pos rfl,
            List.nil_append]
      · intro o' ho' hne'
        rcases List.mem_append.1 ho' with hmem | hmem
        · obtain ⟨g, hg, hgid⟩ := h2 o' hmem hne'
          exact ⟨g, List.mem_append_left _ hg, hgid⟩
        · rw [List.mem_singleton] at hmem
          rw [hmem]
          exact ⟨(o.clientId, [o]),
            List.mem_append_right _ (List.mem_singleton.2 rfl), rfl⟩

theorem build_groups_invariant {ι : Type} :
    ∀ (rest processed : List (OpenOrder ι))
      (groups : List (String × List (OpenOrder ι))),
      groups_invariant processed groups →
      groups_invariant (processed ++ rest) (build_groups groups rest) := by
  intro rest
  induction rest with
  | nil =>
    intro processed groups hinv
    rw [List.append_nil]
    exact hinv
  | cons o rest ih =>
    intro processed groups hinv
    have h1 := ih (processed ++ [o]) (insert_into_groups groups o)
      (insert_into_groups_invariant o hinv)
    rw [List.append_assoc] at h1
    simpa using h1

theorem build_groups_spec {ι : Type} (open_orders : List (OpenOrder ι)) :
    groups_invariant open_orders (build_groups [] open_orders) := by
  have hbase : groups_invariant ([] : List (OpenOrder ι)) [] := by
    constructor
    · intro g hg
      cases hg
    · intro o ho
      cases ho
  have h := build_groups_invariant open_orders [] [] hbase
  simpa using h

theorem sorted_getLast_le {ι : Type} [LinearOrder ι] :
    ∀ (l : List (OpenOrder ι)), l.Sorted (fun a b => a.id ≤ b.id) →
      ∀ (h : l ≠ []) (o : OpenOrder ι), o ∈ l → o.id ≤ (l.getLast h).id := by
  intro l
  induction l with
  | nil => intro _ h; exact absurd rfl h
  | cons a t ih =>
    intro hsorted h o ho
    cases t with
    | nil =>
      rw [List.mem_singleton] at ho
      rw [ho]
      exact le_refl _
    | cons b t' =>
      rw [List.getLast_cons (by simp : b :: t' ≠ [])]
      rcases List.mem_cons.1 ho with rfl | ho'
      · exact List.rel_of_sorted_cons hsorted _ (List.getLast_mem (by simp))
      · exact ih hsorted.of_cons (by simp) o ho'

/-- C9: every id returned by the duplicate scan belongs to an open order
whose client id is not `"0"` (reserved ids never appear in the output); the
scan's groups are exactly the open orders of each non-`"0"` client id, and
from each group exactly one order — one with the maximal venue id, the last
of the sorted group — is withheld from the output. -/
theorem duplicate_scan_skips_zero_keeps_max {ι : Type} [LinearOrder ι]
    (open_orders : List (OpenOrder ι)) :
    (∀ s ∈ get_duplicated_orders_ids open_orders,
        ∃ o, o ∈ open_orders ∧ o.clientId ≠ "0" ∧ o.id = s)
    ∧ (∀ g ∈ build_groups [] open_orders,
        g.1 ≠ "0"
        ∧ g.2 = open_orders.filter (fun o => o.clientId = g.1)
        ∧ ∃ keep, keep ∈ g.2 ∧ (∀ o ∈ g.2, o.id ≤ keep.id)
            ∧ sort_by_id g.2 = (sort_by_id g.2).dropLast ++ [keep]) := by
  have hinv := build_groups_spec open_orders
  constructor
  · intro s hs
    unfold get_duplicated_orders_ids at hs
    rw [List.mem_flatten] at hs
    obtain ⟨l, hl, hsl⟩ := hs
    rw [List.mem_map] at hl
    obtain ⟨g, hg, rfl⟩ := hl
    rw [List.mem_map] at hsl
    obtain ⟨o, ho, rfl⟩ := hsl
    have ho2 : o ∈ sort_by_id g.2 := List.dropLast_subset _ ho
    have ho3 : o ∈ g.2 := (List.mem_insertionSort _).1 ho2
    obtain ⟨hne0, hne, hfilter⟩ := hinv.1 g hg
    rw [hfilter, List.mem_filter] at ho3
    refine ⟨o, ho3.1, ?_, rfl⟩
    have := ho3.2
    rw [decide_eq_true_eq] at this
    rw [this]
    exact hne0
  · intro g hg
    obtain ⟨hne0, hne, hfilter⟩ := hinv.1 g hg
    have hsne : sort_by_id g.2 ≠ [] := by
      intro hcon
      apply hne
      have hcon2 : List.insertionSort (fun a b => a.id ≤ b.id) g.2 = [] := hcon
      have hlen := List.length_insertionSort (fun a b => a.id ≤ b.id) g.2
      rw [hcon2] at hlen
      exact List.length_eq_zero.1 hlen.symm
    refine ⟨hne0, hfilter, (sort_by_id g.2).getLast hsne,
      (List.mem_insertionSort _).1 (List.getLast_mem hsne), ?_,
      (List.dropLast_append_getLast hsne).symm⟩
    intro o ho
    exact sorted_getLast_le (sort_by_id g.2)
      (List.sorted_insertionSort _ _) hsne o ((List.mem_insertionSort _).2 ho)

/-- Witness for C9: among open orders `(id 2, client "a")`, `(id 1,
client "a")` and `(id 9, client "0")`, the scan returns id `1`, which
belongs to an order with a non-reserved client id. -/
theorem duplicate_scan_witness :
    (1 : Nat) ∈ get_duplicated_orders_ids
        [(⟨2, "a"⟩ : OpenOrder Nat), ⟨1, "a"⟩, ⟨9, "0"⟩]
    ∧ ∃ o, o ∈ [(⟨2, "a"⟩ : OpenOrder Nat), ⟨1, "a"⟩, ⟨9, "0"⟩]
        ∧ o.clientId ≠ "0" ∧ o.id = 1 := by
  have hmem : (1 : Nat) ∈ get_duplicated_orders_ids
      [(⟨2, "a"⟩ : OpenOrder Nat), ⟨1, "a"⟩, ⟨9, "0"⟩] := by decide
  exact ⟨hmem, (duplicate_scan_skips_zero_keeps_max
    [(⟨2, "a"⟩ : OpenOrder Nat), ⟨1, "a"⟩, ⟨9, "0"⟩]).1 1 hmem⟩
